import Mathlib

set_option autoImplicit false

/-
  Verification of the event-queue and typed-waiter layer of
  system/gd/security/pairing_handler_le.h (SMP pairing handler for BLE).

  The C++ handler runs a worker thread that blocks in WaitForEvent on a
  condition variable guarding a FIFO std::queue<PairingEvent>.  We embed the
  queue as a Lean list and the blocking wait as a function of the current
  queue plus a "wakeups" trace: each trace element is the queue contents
  observed after one condition-variable notification arriving within the
  30-second window; an exhausted trace models the timeout elapsing with no
  event.  Generated packet views (security/smp_packets.h, hci/hci_packets.h)
  and PairingFailure (security/pairing_failure.h) are not part of the
  sources; they are modelled from the specification's wire-format table and
  data model, as noted on each definition.
-/

/-- SMP command opcodes carried in the first byte of an SMP PDU, as listed in
the specification's wire-format table (opcodes 0x01 to 0x0E). -/
inductive Code
  | PAIRING_REQUEST
  | PAIRING_RESPONSE
  | PAIRING_CONFIRM
  | PAIRING_RANDOM
  | PAIRING_FAILED
  | ENCRYPTION_INFORMATION
  | CENTRAL_IDENTIFICATION
  | IDENTITY_INFORMATION
  | IDENTITY_ADDRESS_INFORMATION
  | SIGNING_INFORMATION
  | SECURITY_REQUEST
  | PAIRING_PUBLIC_KEY
  | PAIRING_DH_KEY_CHECK
  | PAIRING_KEYPRESS_NOTIFICATION
  deriving DecidableEq, Repr

/-- Modelled from the spec: textual name of an SMP opcode, mirroring the
generated CodeText helper used in WaitPacket failure messages. -/
def CodeText : Code → String
  | Code.PAIRING_REQUEST => "PAIRING_REQUEST"
  | Code.PAIRING_RESPONSE => "PAIRING_RESPONSE"
  | Code.PAIRING_CONFIRM => "PAIRING_CONFIRM"
  | Code.PAIRING_RANDOM => "PAIRING_RANDOM"
  | Code.PAIRING_FAILED => "PAIRING_FAILED"
  | Code.ENCRYPTION_INFORMATION => "ENCRYPTION_INFORMATION"
  | Code.CENTRAL_IDENTIFICATION => "CENTRAL_IDENTIFICATION"
  | Code.IDENTITY_INFORMATION => "IDENTITY_INFORMATION"
  | Code.IDENTITY_ADDRESS_INFORMATION => "IDENTITY_ADDRESS_INFORMATION"
  | Code.SIGNING_INFORMATION => "SIGNING_INFORMATION"
  | Code.SECURITY_REQUEST => "SECURITY_REQUEST"
  | Code.PAIRING_PUBLIC_KEY => "PAIRING_PUBLIC_KEY"
  | Code.PAIRING_DH_KEY_CHECK => "PAIRING_DH_KEY_CHECK"
  | Code.PAIRING_KEYPRESS_NOTIFICATION => "PAIRING_KEYPRESS_NOTIFICATION"

/-- Modelled from the spec: body length in bytes of each SMP PDU, from the
wire-format table (section 6). -/
def bodyLength : Code → Nat
  | Code.PAIRING_REQUEST => 6
  | Code.PAIRING_RESPONSE => 6
  | Code.PAIRING_CONFIRM => 16
  | Code.PAIRING_RANDOM => 16
  | Code.PAIRING_FAILED => 1
  | Code.ENCRYPTION_INFORMATION => 16
  | Code.CENTRAL_IDENTIFICATION => 10
  | Code.IDENTITY_INFORMATION => 16
  | Code.IDENTITY_ADDRESS_INFORMATION => 7
  | Code.SIGNING_INFORMATION => 16
  | Code.PAIRING_PUBLIC_KEY => 64
  | Code.PAIRING_DH_KEY_CHECK => 16
  | Code.SECURITY_REQUEST => 1
  | Code.PAIRING_KEYPRESS_NOTIFICATION => 1

/-- Modelled from the spec: the base SMP CommandView produced by the PDL
generated code (security/smp_packets.h, not in the sources).  It records
whether the base packet parsed (IsValid), its opcode (GetCode) and the body
bytes following the opcode. -/
structure CommandView where
  valid : Bool
  code : Code
  payload : List Nat
  deriving DecidableEq, Repr

def CommandView.IsValid (c : CommandView) : Bool := c.valid

def CommandView.GetCode (c : CommandView) : Code := c.code

/-- Modelled from the spec: a typed SMP packet view for opcode C, as produced
by CodeToPacketView@C::type::Create.  Create never fails; IsValid reports
whether the wrapped command parsed, carries opcode C and has the body length
the wire-format table prescribes. -/
structure TypedView (C : Code) where
  cmd : CommandView
  deriving DecidableEq, Repr

def TypedView.Create (C : Code) (c : CommandView) : TypedView C := ⟨c⟩

def TypedView.IsValid {C : Code} (v : TypedView C) : Bool :=
  v.cmd.valid && decide (v.cmd.code = C) && decide (v.cmd.payload.length = bodyLength C)

abbrev PairingConfirmView := TypedView Code.PAIRING_CONFIRM

abbrev PairingFailedView := TypedView Code.PAIRING_FAILED

/-- Modelled from the spec: the SMP reason code of a PAIRING_FAILED PDU is its
single body byte (wire-format table: reason(1)); reason codes are represented
by their byte value. -/
def TypedView.GetReason (v : TypedView Code.PAIRING_FAILED) : Nat :=
  v.cmd.payload.headD 0

/-- Modelled from the spec: HCI event codes consumed by the handler
(hci/hci_packets.h is not in the sources). -/
inductive EventCode
  | ENCRYPTION_CHANGE
  | ENCRYPTION_KEY_REFRESH_COMPLETE
  | LE_META_EVENT
  | OTHER (raw : Nat)
  deriving DecidableEq, Repr

/-- Modelled from the spec: a generated HCI EventView; validity of the base
parse, the event code, and the parameter bytes. -/
structure EventView where
  valid : Bool
  event_code : EventCode
  payload : List Nat
  deriving DecidableEq, Repr

def EventView.IsValid (e : EventView) : Bool := e.valid

def EventView.GetEventCode (e : EventView) : EventCode := e.event_code

/-- Modelled from the spec: the generated Encryption Change event view; its
HCI body is Status(1) Handle(2) Encryption_Enabled(1). -/
structure EncryptionChangeView where
  ev : EventView
  deriving DecidableEq, Repr

def EncryptionChangeView.Create (e : EventView) : EncryptionChangeView := ⟨e⟩

def EncryptionChangeView.IsValid (v : EncryptionChangeView) : Bool :=
  v.ev.valid && decide (v.ev.event_code = EventCode.ENCRYPTION_CHANGE) &&
    decide (v.ev.payload.length = 4)

/-- Modelled from the spec: the generated Encryption Key Refresh Complete
event view; its HCI body is Status(1) Handle(2). -/
structure EncryptionKeyRefreshCompleteView where
  ev : EventView
  deriving DecidableEq, Repr

def EncryptionKeyRefreshCompleteView.Create (e : EventView) : EncryptionKeyRefreshCompleteView := ⟨e⟩

def EncryptionKeyRefreshCompleteView.IsValid (v : EncryptionKeyRefreshCompleteView) : Bool :=
  v.ev.valid && decide (v.ev.event_code = EventCode.ENCRYPTION_KEY_REFRESH_COMPLETE) &&
    decide (v.ev.payload.length = 3)

/-- Modelled from the spec: subevent code of the LE Long Term Key Request
meta event (first parameter byte of an LE meta event). -/
def longTermKeyRequestSubevent : Nat := 5

/-- Modelled from the spec: the generated LE meta event view; valid when the
base event parsed, carries LE_META_EVENT and has at least the subevent byte. -/
structure LeMetaEventView where
  ev : EventView
  deriving DecidableEq, Repr

def LeMetaEventView.Create (e : EventView) : LeMetaEventView := ⟨e⟩

def LeMetaEventView.IsValid (v : LeMetaEventView) : Bool :=
  v.ev.valid && decide (v.ev.event_code = EventCode.LE_META_EVENT) &&
    decide (1 ≤ v.ev.payload.length)

def LeMetaEventView.GetSubeventCode (v : LeMetaEventView) : Nat :=
  v.ev.payload.headD 0

/-- Modelled from the spec: the generated LE Long Term Key Request view; body
Subevent(1) Handle(2) Rand(8) EDIV(2). -/
structure LeLongTermKeyRequestView where
  le : LeMetaEventView
  deriving DecidableEq, Repr

def LeLongTermKeyRequestView.Create (l : LeMetaEventView) : LeLongTermKeyRequestView := ⟨l⟩

def LeLongTermKeyRequestView.IsValid (v : LeLongTermKeyRequestView) : Bool :=
  v.le.IsValid && decide (v.le.GetSubeventCode = longTermKeyRequestSubevent) &&
    decide (v.le.ev.payload.length = 13)

/-- The UI_ACTION_TYPE enum of PairingEvent. -/
inductive UI_ACTION_TYPE
  | PAIRING_ACCEPTED
  | CONFIRM_YESNO
  | PASSKEY
  deriving DecidableEq, Repr

/-- PairingEvent: the tagged union delivered to the worker.  The C++ class
stores a TYPE tag plus optional fields; its four constructors establish
exactly one payload per tag, so the faithful embedding is this sum. -/
inductive PairingEvent
  | EXIT
  | L2CAP (l2cap_packet : CommandView)
  | HCI_EVENT (hci_event : EventView)
  | UI (ui_action : UI_ACTION_TYPE) (ui_value : Nat)
  deriving DecidableEq, Repr

/-- The TYPE tag enum of PairingEvent. -/
inductive TYPE
  | EXIT
  | L2CAP
  | HCI_EVENT
  | UI
  deriving DecidableEq, Repr

def PairingEvent.type : PairingEvent → TYPE
  | PairingEvent.EXIT => TYPE.EXIT
  | PairingEvent.L2CAP _ => TYPE.L2CAP
  | PairingEvent.HCI_EVENT _ => TYPE.HCI_EVENT
  | PairingEvent.UI _ _ => TYPE.UI

/-- SMP_TIMEOUT: the per-wait timeout in seconds (pairing_handler_le.h line 81). -/
def SMP_TIMEOUT : Nat := 30

/-- Modelled from the spec: the extra payload a PairingFailure may carry
beyond its message: nothing, the SMP reason code of an inbound
PAIRING_FAILED (as its byte value), or the unexpected opcode received
(the two-argument PairingFailure constructors used in WaitPacket;
security/pairing_failure.h is not in the sources). -/
inductive FailReason
  | noReason
  | smpReason (reason : Nat)
  | receivedOpcode (code : Code)
  deriving DecidableEq, Repr

/-- Modelled from the spec: PairingFailure is a textual reason plus an
optional SMP reason code or received opcode. -/
structure PairingFailure where
  message : String
  reason : FailReason
  deriving DecidableEq, Repr

/-- WaitForEvent: pops the front of the FIFO queue if nonempty; otherwise
blocks on the condition variable.  The blocking is embedded by the wakeups
trace: each element is the queue contents present after one notification
arriving inside the SMP_TIMEOUT window (an empty element is a spurious
wakeup), and an exhausted trace is the timeout elapsing, which yields the
synthetic EXIT event exactly as the C++ do-while loop does. -/
def WaitForEvent : List PairingEvent → List (List PairingEvent) → PairingEvent × List PairingEvent
  | e :: rest, _ => (e, rest)
  | [], [] => (PairingEvent.EXIT, [])
  | [], pushed :: ws => WaitForEvent pushed ws

/-- The handler state the waiters touch: the event queue and the one-slot
cached_pariring_confirm_view (a unique_ptr in the C++, hence empty or
holding exactly one view). -/
structure HandlerState where
  queue : List PairingEvent
  cached_pariring_confirm_view : Option PairingConfirmView
  deriving DecidableEq, Repr

/-- OnCommandView: producer enqueueing a peer SMP PDU at the back of the queue. -/
def OnCommandView (q : List PairingEvent) (packet : CommandView) : List PairingEvent :=
  q ++ [PairingEvent.L2CAP packet]

/-- OnHciEvent: producer enqueueing an HCI event at the back of the queue. -/
def OnHciEvent (q : List PairingEvent) (hci_event : EventView) : List PairingEvent :=
  q ++ [PairingEvent.HCI_EVENT hci_event]

/-- OnHciLeEvent: producer enqueueing an LE meta HCI event (upcast to its
base EventView, as the C++ PairingEvent constructor takes hci::EventView). -/
def OnHciLeEvent (q : List PairingEvent) (hci_event : LeMetaEventView) : List PairingEvent :=
  q ++ [PairingEvent.HCI_EVENT hci_event.ev]

/-- OnUiAction: producer enqueueing a UI interaction at the back of the queue. -/
def OnUiAction (q : List PairingEvent) (ui_action : UI_ACTION_TYPE) (ui_value : Nat) :
    List PairingEvent :=
  q ++ [PairingEvent.UI ui_action ui_value]

/-- SendExitSignal: producer enqueueing the EXIT event at the back of the queue. -/
def SendExitSignal (q : List PairingEvent) : List PairingEvent :=
  q ++ [PairingEvent.EXIT]

/-- WaitUiPairingAccept: returns the event when it is a UI PAIRING_ACCEPTED
interaction, and nullopt otherwise. -/
def WaitUiPairingAccept (st : HandlerState) (w : List (List PairingEvent)) :
    Option PairingEvent × HandlerState :=
  let r := WaitForEvent st.queue w
  match r.1 with
  | PairingEvent.UI a v =>
    if a = UI_ACTION_TYPE.PAIRING_ACCEPTED then
      (some (PairingEvent.UI a v), ⟨r.2, st.cached_pariring_confirm_view⟩)
    else
      (none, ⟨r.2, st.cached_pariring_confirm_view⟩)
  | _ => (none, ⟨r.2, st.cached_pariring_confirm_view⟩)

/-- WaitUiConfirmYesNo: returns the event when it is a UI CONFIRM_YESNO
interaction, and nullopt otherwise. -/
def WaitUiConfirmYesNo (st : HandlerState) (w : List (List PairingEvent)) :
    Option PairingEvent × HandlerState :=
  let r := WaitForEvent st.queue w
  match r.1 with
  | PairingEvent.UI a v =>
    if a = UI_ACTION_TYPE.CONFIRM_YESNO then
      (some (PairingEvent.UI a v), ⟨r.2, st.cached_pariring_confirm_view⟩)
    else
      (none, ⟨r.2, st.cached_pariring_confirm_view⟩)
  | _ => (none, ⟨r.2, st.cached_pariring_confirm_view⟩)

/-- The final check of WaitUiPasskey: the event is returned when it is a UI
PASSKEY interaction, otherwise the call yields nullopt. -/
def passkeyResult (e : PairingEvent) : Option PairingEvent :=
  match e with
  | PairingEvent.UI a v =>
    if a = UI_ACTION_TYPE.PASSKEY then some (PairingEvent.UI a v) else none
  | _ => none

/-- WaitUiPasskey: waits for the UI passkey.  A PAIRING_CONFIRM from the
remote device may arrive while waiting: a valid one is stored in
cached_pariring_confirm_view and the wait is reissued once; a malformed
L2CAP packet, a non-confirm opcode or an unparsable confirm yields nullopt.
The event then in hand must be a UI PASSKEY interaction. -/
def WaitUiPasskey (st : HandlerState) (w1 w2 : List (List PairingEvent)) :
    Option PairingEvent × HandlerState :=
  let r1 := WaitForEvent st.queue w1
  match r1.1 with
  | PairingEvent.L2CAP l2cap_packet =>
    if l2cap_packet.IsValid = false then
      (none, ⟨r1.2, st.cached_pariring_confirm_view⟩)
    else if l2cap_packet.GetCode ≠ Code.PAIRING_CONFIRM then
      (none, ⟨r1.2, st.cached_pariring_confirm_view⟩)
    else
      let pkt := TypedView.Create Code.PAIRING_CONFIRM l2cap_packet
      if pkt.IsValid = false then
        (none, ⟨r1.2, st.cached_pariring_confirm_view⟩)
      else
        let r2 := WaitForEvent r1.2 w2
        (passkeyResult r2.1, ⟨r2.2, some pkt⟩)
  | e => (passkeyResult e, ⟨r1.2, st.cached_pariring_confirm_view⟩)

/-- WaitPacket for opcode CODE: classifies the next event.  EXIT, HCI and UI
events, malformed L2CAP packets, wrong opcodes and unparsable bodies are
PairingFailure; an inbound well-formed PAIRING_FAILED surfaces its SMP
reason code; only a valid, parsable CODE packet is returned. -/
def WaitPacket (CODE : Code) (st : HandlerState) (w : List (List PairingEvent)) :
    Except PairingFailure (TypedView CODE) × HandlerState :=
  let r := WaitForEvent st.queue w
  let st1 : HandlerState := ⟨r.2, st.cached_pariring_confirm_view⟩
  match r.1 with
  | PairingEvent.EXIT =>
    (Except.error ⟨"Was expecting L2CAP Packet " ++ CodeText CODE ++
      ", but received EXIT instead", FailReason.noReason⟩, st1)
  | PairingEvent.HCI_EVENT _ =>
    (Except.error ⟨"Was expecting L2CAP Packet " ++ CodeText CODE ++
      ", but received HCI_EVENT instead", FailReason.noReason⟩, st1)
  | PairingEvent.UI _ _ =>
    (Except.error ⟨"Was expecting L2CAP Packet " ++ CodeText CODE ++
      ", but received UI instead", FailReason.noReason⟩, st1)
  | PairingEvent.L2CAP l2cap_packet =>
    if l2cap_packet.IsValid = false then
      (Except.error ⟨"Malformed L2CAP packet received!", FailReason.noReason⟩, st1)
    else
      let received_code := l2cap_packet.GetCode
      if received_code ≠ CODE then
        if received_code = Code.PAIRING_FAILED then
          let pkt := TypedView.Create Code.PAIRING_FAILED l2cap_packet
          if pkt.IsValid = false then
            (Except.error ⟨"Malformed " ++ CodeText CODE ++ " packet", FailReason.noReason⟩, st1)
          else
            (Except.error ⟨"Was expecting " ++ CodeText CODE ++
              ", but received PAIRING_FAILED instead", FailReason.smpReason pkt.GetReason⟩, st1)
        else
          (Except.error ⟨"Was expecting " ++ CodeText CODE ++ ", but received " ++
            CodeText received_code ++ " instead", FailReason.receivedOpcode received_code⟩, st1)
      else
        let pkt := TypedView.Create CODE l2cap_packet
        if pkt.IsValid = false then
          (Except.error ⟨"Malformed " ++ CodeText CODE ++ " packet", FailReason.noReason⟩, st1)
        else
          (Except.ok pkt, st1)

/-- WaitPairingConfirm: when the one-slot cache holds an out-of-order
PAIRING_CONFIRM it is returned and the slot released without touching the
queue; otherwise the confirm is awaited as a normal packet. -/
def WaitPairingConfirm (st : HandlerState) (w : List (List PairingEvent)) :
    Except PairingFailure PairingConfirmView × HandlerState :=
  match st.cached_pariring_confirm_view with
  | some pkt => (Except.ok pkt, ⟨st.queue, none⟩)
  | none => WaitPacket Code.PAIRING_CONFIRM st w

/-- Result of WaitEncryptionChanged: the C++ variant of PairingFailure,
EncryptionChangeView and EncryptionKeyRefreshCompleteView. -/
inductive EncChangedResult
  | failure (f : PairingFailure)
  | encryptionChange (v : EncryptionChangeView)
  | keyRefresh (v : EncryptionKeyRefreshCompleteView)
  deriving DecidableEq, Repr

/-- WaitEncryptionChanged: accepts a valid HCI event parsing as Encryption
Change or Encryption Key Refresh Complete; everything else is a
PairingFailure. -/
def WaitEncryptionChanged (st : HandlerState) (w : List (List PairingEvent)) :
    EncChangedResult × HandlerState :=
  let r := WaitForEvent st.queue w
  let st1 : HandlerState := ⟨r.2, st.cached_pariring_confirm_view⟩
  match r.1 with
  | PairingEvent.HCI_EVENT hci_event =>
    if hci_event.IsValid = false then
      (EncChangedResult.failure ⟨"Received invalid HCI event", FailReason.noReason⟩, st1)
    else if hci_event.GetEventCode = EventCode.ENCRYPTION_CHANGE then
      let enc_chg_packet := EncryptionChangeView.Create hci_event
      if enc_chg_packet.IsValid = false then
        (EncChangedResult.failure ⟨"Invalid Encryption Change packet received",
          FailReason.noReason⟩, st1)
      else
        (EncChangedResult.encryptionChange enc_chg_packet, st1)
    else if hci_event.GetEventCode = EventCode.ENCRYPTION_KEY_REFRESH_COMPLETE then
      let enc_packet := EncryptionKeyRefreshCompleteView.Create hci_event
      if enc_packet.IsValid = false then
        (EncChangedResult.failure ⟨"Invalid Key Refresh packet received",
          FailReason.noReason⟩, st1)
      else
        (EncChangedResult.keyRefresh enc_packet, st1)
    else
      (EncChangedResult.failure
        ⟨"Was expecting Encryption Change or Key Refresh Complete but received something else",
          FailReason.noReason⟩, st1)
  | _ =>
    (EncChangedResult.failure ⟨"Was expecting HCI event but received something else",
      FailReason.noReason⟩, st1)

/-- WaitLeLongTermKeyRequest: accepts a valid LE meta event whose subevent is
Long Term Key Request and that parses as the request view; everything else
is a PairingFailure. -/
def WaitLeLongTermKeyRequest (st : HandlerState) (w : List (List PairingEvent)) :
    Except PairingFailure LeLongTermKeyRequestView × HandlerState :=
  let r := WaitForEvent st.queue w
  let st1 : HandlerState := ⟨r.2, st.cached_pariring_confirm_view⟩
  match r.1 with
  | PairingEvent.HCI_EVENT hci_event =>
    if hci_event.IsValid = false then
      (Except.error ⟨"Received invalid HCI event", FailReason.noReason⟩, st1)
    else if hci_event.GetEventCode ≠ EventCode.LE_META_EVENT then
      (Except.error ⟨"Was expecting LE event", FailReason.noReason⟩, st1)
    else
      let le_event := LeMetaEventView.Create hci_event
      if le_event.IsValid = false then
        (Except.error ⟨"Invalid LE Event received", FailReason.noReason⟩, st1)
      else if le_event.GetSubeventCode ≠ longTermKeyRequestSubevent then
        (Except.error ⟨"Was expecting Long Term Key Request", FailReason.noReason⟩, st1)
      else
        let ltk_req_packet := LeLongTermKeyRequestView.Create le_event
        if ltk_req_packet.IsValid = false then
          (Except.error ⟨"Invalid LE Long Term Key Request received", FailReason.noReason⟩, st1)
        else
          (Except.ok ltk_req_packet, st1)
  | _ =>
    (Except.error ⟨"Was expecting HCI event but received something else",
      FailReason.noReason⟩, st1)

/-- One producer call, for stating FIFO delivery across all producers. -/
inductive ProducerAction
  | command (packet : CommandView)
  | hci (hci_event : EventView)
  | hciLe (hci_event : LeMetaEventView)
  | uiAct (ui_action : UI_ACTION_TYPE) (ui_value : Nat)
  | exitSignal
  deriving DecidableEq, Repr

def applyProducer (q : List PairingEvent) : ProducerAction → List PairingEvent
  | ProducerAction.command p => OnCommandView q p
  | ProducerAction.hci e => OnHciEvent q e
  | ProducerAction.hciLe e => OnHciLeEvent q e
  | ProducerAction.uiAct a v => OnUiAction q a v
  | ProducerAction.exitSignal => SendExitSignal q

/-- The event a producer call enqueues. -/
def eventOf : ProducerAction → PairingEvent
  | ProducerAction.command p => PairingEvent.L2CAP p
  | ProducerAction.hci e => PairingEvent.HCI_EVENT e
  | ProducerAction.hciLe e => PairingEvent.HCI_EVENT e.ev
  | ProducerAction.uiAct a v => PairingEvent.UI a v
  | ProducerAction.exitSignal => PairingEvent.EXIT

/-- Performs n successive WaitForEvent calls with no notifications during
any of them, collecting the returned events in order. -/
def waitN : Nat → List PairingEvent → List PairingEvent × List PairingEvent
  | 0, q => ([], q)
  | n + 1, q =>
    let r := WaitForEvent q []
    let rest := waitN n r.2
    (r.1 :: rest.1, rest.2)

/-- Modelled from the spec: the terminal states of the worker running
PairingMain (whose definition is not in the sources): it is running, or has
finished with a result, a PairingFailure, or an abort caused by the EXIT
event (timeout or cancellation). -/
inductive SessionStatus
  | running
  | succeeded
  | failed
  | aborted
  deriving DecidableEq, Repr

/-- Modelled from the spec: one worker step consuming a dequeued event.  The
first EXIT dequeued aborts the session immediately; a worker already
finished (succeeded, failed or aborted) ignores every further event; while
running, any other event advances the session by the transition d of the
phase logic. -/
def workerStep (d : PairingEvent → SessionStatus) (s : SessionStatus) (e : PairingEvent) :
    SessionStatus :=
  match s with
  | SessionStatus.running =>
    if e = PairingEvent.EXIT then SessionStatus.aborted else d e
  | other => other

/-- Modelled from the spec: the worker consuming the whole queue in order. -/
def runWorker (d : PairingEvent → SessionStatus) (s : SessionStatus)
    (q : List PairingEvent) : SessionStatus :=
  q.foldl (workerStep d) s

/-- A sample well-formed PAIRING_CONFIRM command: valid base packet, confirm
opcode, 16-byte body. -/
def sampleConfirmPacket : CommandView :=
  ⟨true, Code.PAIRING_CONFIRM, List.replicate 16 0⟩

/-- A second sample well-formed PAIRING_CONFIRM command with a different body. -/
def sampleConfirmPacket2 : CommandView :=
  ⟨true, Code.PAIRING_CONFIRM, List.replicate 16 1⟩

/-- A sample well-formed PAIRING_FAILED command carrying reason code 5
(Pairing Not Supported). -/
def sampleFailedPacket : CommandView :=
  ⟨true, Code.PAIRING_FAILED, [5]⟩

/- ------------------------------------------------------------------ -/
/- Helper lemmas shared by the claim theorems.                         -/
/- ------------------------------------------------------------------ -/

theorem waitForEvent_cons (e : PairingEvent) (q : List PairingEvent)
    (w : List (List PairingEvent)) : WaitForEvent (e :: q) w = (e, q) := by
  simp [WaitForEvent]

theorem confirmValid_fields (p : CommandView)
    (h : (TypedView.Create Code.PAIRING_CONFIRM p).IsValid = true) :
    p.valid = true ∧ p.code = Code.PAIRING_CONFIRM := by
  simp only [TypedView.IsValid, TypedView.Create, Bool.and_eq_true, decide_eq_true_eq] at h
  exact ⟨h.1.1, h.1.2⟩

theorem passkeyResult_eq_none (e : PairingEvent)
    (h : ∀ v : Nat, e ≠ PairingEvent.UI UI_ACTION_TYPE.PASSKEY v) :
    passkeyResult e = none := by
  cases e with
  | UI a v =>
    cases a with
    | PASSKEY => exact absurd rfl (h v)
    | PAIRING_ACCEPTED => simp [passkeyResult]
    | CONFIRM_YESNO => simp [passkeyResult]
  | EXIT => rfl
  | L2CAP p => rfl
  | HCI_EVENT ev => rfl

theorem waitUiPasskey_cachePath (p : CommandView) (q : List PairingEvent)
    (c0 : Option PairingConfirmView) (w1 w2 : List (List PairingEvent))
    (h : (TypedView.Create Code.PAIRING_CONFIRM p).IsValid = true) :
    WaitUiPasskey ⟨PairingEvent.L2CAP p :: q, c0⟩ w1 w2 =
      (passkeyResult (WaitForEvent q w2).1,
        ⟨(WaitForEvent q w2).2, some (TypedView.Create Code.PAIRING_CONFIRM p)⟩) := by
  obtain ⟨hv, hc⟩ := confirmValid_fields p h
  simp [WaitUiPasskey, WaitForEvent, CommandView.IsValid, CommandView.GetCode, hv, hc, h]

/- ------------------------------------------------------------------ -/
/- Claim theorems.                                                     -/
/- ------------------------------------------------------------------ -/

/-- C1: a valid PAIRING_CONFIRM delivered while WaitUiPasskey is waiting is
stored in the single cached_pariring_confirm_view slot and the wait is
reissued for the UI passkey (the call's outcome is the passkey check of the
next event, and one further event is consumed); the next WaitPairingConfirm
returns exactly that cached confirm without reading the event queue and
leaves the slot empty. -/
theorem confirm_during_passkey_cached_then_consumed (p : CommandView)
    (q : List PairingEvent) (c0 : Option PairingConfirmView)
    (w1 w2 w3 : List (List PairingEvent))
    (h : (TypedView.Create Code.PAIRING_CONFIRM p).IsValid = true) :
    (WaitUiPasskey ⟨PairingEvent.L2CAP p :: q, c0⟩ w1 w2).2.cached_pariring_confirm_view =
        some (TypedView.Create Code.PAIRING_CONFIRM p) ∧
    (WaitUiPasskey ⟨PairingEvent.L2CAP p :: q, c0⟩ w1 w2).1 =
        passkeyResult (WaitForEvent q w2).1 ∧
    (WaitUiPasskey ⟨PairingEvent.L2CAP p :: q, c0⟩ w1 w2).2.queue =
        (WaitForEvent q w2).2 ∧
    WaitPairingConfirm (WaitUiPasskey ⟨PairingEvent.L2CAP p :: q, c0⟩ w1 w2).2 w3 =
        (Except.ok (TypedView.Create Code.PAIRING_CONFIRM p),
          ⟨(WaitForEvent q w2).2, none⟩) := by
  rw [waitUiPasskey_cachePath p q c0 w1 w2 h]
  exact ⟨rfl, rfl, rfl, rfl⟩

theorem confirm_during_passkey_cached_then_consumed_witness :
    (WaitUiPasskey ⟨[PairingEvent.L2CAP sampleConfirmPacket,
        PairingEvent.UI UI_ACTION_TYPE.PASSKEY 123456], none⟩ []
        []).2.cached_pariring_confirm_view =
      some (TypedView.Create Code.PAIRING_CONFIRM sampleConfirmPacket) :=
  (confirm_during_passkey_cached_then_consumed sampleConfirmPacket
    [PairingEvent.UI UI_ACTION_TYPE.PASSKEY 123456] none [] [] [] (by decide)).1

/-- C8: within one WaitUiPasskey call the wait is reissued at most once:
after a valid PAIRING_CONFIRM has been cached, if the reissued wait yields
anything that is not a UI PASSKEY interaction (another L2CAP packet, even a
second valid confirm, or any other event), the call returns nullopt, keeps
the first cached confirm, and waits no further (exactly one extra event is
consumed). -/
theorem passkey_wait_reissued_at_most_once (p : CommandView)
    (q : List PairingEvent) (c0 : Option PairingConfirmView)
    (w1 w2 : List (List PairingEvent))
    (h : (TypedView.Create Code.PAIRING_CONFIRM p).IsValid = true)
    (h2 : ∀ v : Nat, (WaitForEvent q w2).1 ≠ PairingEvent.UI UI_ACTION_TYPE.PASSKEY v) :
    WaitUiPasskey ⟨PairingEvent.L2CAP p :: q, c0⟩ w1 w2 =
      (none, ⟨(WaitForEvent q w2).2, some (TypedView.Create Code.PAIRING_CONFIRM p)⟩) := by
  rw [waitUiPasskey_cachePath p q c0 w1 w2 h, passkeyResult_eq_none _ h2]

theorem passkey_wait_reissued_at_most_once_witness :
    WaitUiPasskey ⟨[PairingEvent.L2CAP sampleConfirmPacket,
        PairingEvent.L2CAP sampleConfirmPacket2], none⟩ [] [] =
      (none, ⟨[], some (TypedView.Create Code.PAIRING_CONFIRM sampleConfirmPacket)⟩) :=
  passkey_wait_reissued_at_most_once sampleConfirmPacket
    [PairingEvent.L2CAP sampleConfirmPacket2] none [] [] (by decide)
    (by intro v hv; simp [WaitForEvent] at hv)

/-- C9: when the cached_pariring_confirm_view slot is occupied,
WaitPairingConfirm returns the cached value, leaves the event queue
unchanged, performs no wait (the wakeups trace is irrelevant), and empties
the slot. -/
theorem wait_pairing_confirm_cached_frame (q : List PairingEvent)
    (c : PairingConfirmView) (w : List (List PairingEvent)) :
    WaitPairingConfirm ⟨q, some c⟩ w = (Except.ok c, ⟨q, none⟩) := rfl

/-- C10: the one-slot cache never holds more than one confirm (it is an
Option, the embedding of the C++ unique_ptr, hence empty or holding exactly
one view by construction); when WaitUiPasskey caches a valid
PAIRING_CONFIRM while the slot is already occupied, the old view is
discarded and replaced by the new one. -/
theorem cached_slot_replaced (p : CommandView) (q : List PairingEvent)
    (c0 : PairingConfirmView) (w1 w2 : List (List PairingEvent))
    (h : (TypedView.Create Code.PAIRING_CONFIRM p).IsValid = true) :
    (WaitUiPasskey ⟨PairingEvent.L2CAP p :: q, some c0⟩ w1 w2).2.cached_pariring_confirm_view =
      some (TypedView.Create Code.PAIRING_CONFIRM p) := by
  rw [waitUiPasskey_cachePath p q (some c0) w1 w2 h]

theorem cached_slot_replaced_witness :
    (WaitUiPasskey ⟨[PairingEvent.L2CAP sampleConfirmPacket],
        some (TypedView.Create Code.PAIRING_CONFIRM sampleConfirmPacket2)⟩
        [] []).2.cached_pariring_confirm_view =
      some (TypedView.Create Code.PAIRING_CONFIRM sampleConfirmPacket) :=
  cached_slot_replaced sampleConfirmPacket []
    (TypedView.Create Code.PAIRING_CONFIRM sampleConfirmPacket2) [] [] (by decide)

/-- C4: the per-call timeout constant SMP_TIMEOUT is 30 seconds; a
WaitForEvent call on an empty queue during which no event arrives (every
notification inside the window delivers nothing, or none arrives) returns
the synthetic EXIT event; and a call finding an event waits no further, so
the bound applies to each wait call separately, not to the whole session. -/
theorem wait_for_event_timeout :
    SMP_TIMEOUT = 30 ∧
    (∀ ws : List (List PairingEvent), (∀ w ∈ ws, w = []) →
      WaitForEvent [] ws = (PairingEvent.EXIT, [])) ∧
    (∀ (e : PairingEvent) (q : List PairingEvent) (w : List (List PairingEvent)),
      WaitForEvent (e :: q) w = (e, q)) := by
  refine ⟨rfl, ?_, fun e q w => waitForEvent_cons e q w⟩
  intro ws h
  induction ws with
  | nil => rfl
  | cons w rest ih =>
    have hw : w = [] := h w (List.mem_cons_self w rest)
    subst hw
    have hrest := ih (fun x hx => h x (List.mem_cons_of_mem _ hx))
    simpa [WaitForEvent] using hrest

theorem wait_for_event_timeout_witness :
    WaitForEvent [] [[], []] = (PairingEvent.EXIT, []) :=
  wait_for_event_timeout.2.1 [[], []] (by decide)

theorem applyProducer_eq_append (q : List PairingEvent) (a : ProducerAction) :
    applyProducer q a = q ++ [eventOf a] := by
  cases a <;> rfl

theorem foldl_applyProducer (acts : List ProducerAction) (q : List PairingEvent) :
    acts.foldl applyProducer q = q ++ acts.map eventOf := by
  induction acts generalizing q with
  | nil => simp
  | cons a rest ih =>
    simp [List.foldl_cons, applyProducer_eq_append, ih, List.append_assoc]

theorem waitN_self (q : List PairingEvent) : waitN q.length q = (q, []) := by
  induction q with
  | nil => rfl
  | cons e rest ih => simp [waitN, WaitForEvent, ih]

/-- C5: the queue is FIFO.  WaitForEvent always removes and returns the
front element, and for every sequence of producer calls (OnCommandView,
OnHciEvent, OnHciLeEvent, OnUiAction, SendExitSignal) starting from the
empty queue, successive WaitForEvent calls return exactly the enqueued
events in enqueue order. -/
theorem fifo_delivery :
    (∀ acts : List ProducerAction,
      waitN acts.length (acts.foldl applyProducer []) = (acts.map eventOf, [])) ∧
    (∀ (e : PairingEvent) (q : List PairingEvent) (w : List (List PairingEvent)),
      WaitForEvent (e :: q) w = (e, q)) := by
  refine ⟨?_, fun e q w => waitForEvent_cons e q w⟩
  intro acts
  rw [foldl_applyProducer, List.nil_append]
  have h := waitN_self (acts.map eventOf)
  simpa [List.length_map] using h

/-- C6: SendExitSignal is idempotent with respect to session outcome: for
every per-event transition of the phase logic, every current status and
every queue of pending events, the worker ends in the same final status
after two consecutive SendExitSignal calls as after one, because the first
EXIT dequeued aborts the session and the finished worker ignores every
further event. -/
theorem send_exit_idempotent (d : PairingEvent → SessionStatus)
    (s : SessionStatus) (q : List PairingEvent) :
    runWorker d s (SendExitSignal (SendExitSignal q)) =
      runWorker d s (SendExitSignal q) := by
  have key : ∀ s0 : SessionStatus,
      workerStep d (workerStep d s0 PairingEvent.EXIT) PairingEvent.EXIT =
        workerStep d s0 PairingEvent.EXIT := by
    intro s0
    cases s0 <;> simp [workerStep]
  simp [runWorker, SendExitSignal, List.foldl_append, key]

theorem waitPacket_mismatch (CODE : Code) (e : PairingEvent)
    (q : List PairingEvent) (c0 : Option PairingConfirmView)
    (w : List (List PairingEvent))
    (h : ∀ p : CommandView, e = PairingEvent.L2CAP p →
      (TypedView.Create CODE p).IsValid = false) :
    ∃ f, (WaitPacket CODE ⟨e :: q, c0⟩ w).1 = Except.error f := by
  cases e with
  | EXIT =>
    simp only [WaitPacket, waitForEvent_cons]
    exact ⟨_, rfl⟩
  | HCI_EVENT ev =>
    simp only [WaitPacket, waitForEvent_cons]
    exact ⟨_, rfl⟩
  | UI a v =>
    simp only [WaitPacket, waitForEvent_cons]
    exact ⟨_, rfl⟩
  | L2CAP p =>
    have hp := h p rfl
    simp only [WaitPacket, waitForEvent_cons]
    split_ifs <;> exact ⟨_, rfl⟩

theorem waitUiPairingAccept_mismatch (e : PairingEvent) (q : List PairingEvent)
    (c0 : Option PairingConfirmView) (w : List (List PairingEvent))
    (h : ∀ v : Nat, e ≠ PairingEvent.UI UI_ACTION_TYPE.PAIRING_ACCEPTED v) :
    (WaitUiPairingAccept ⟨e :: q, c0⟩ w).1 = none := by
  cases e with
  | UI a v =>
    cases a with
    | PAIRING_ACCEPTED => exact absurd rfl (h v)
    | CONFIRM_YESNO => simp [WaitUiPairingAccept, waitForEvent_cons]
    | PASSKEY => simp [WaitUiPairingAccept, waitForEvent_cons]
  | EXIT => simp [WaitUiPairingAccept, waitForEvent_cons]
  | L2CAP p => simp [WaitUiPairingAccept, waitForEvent_cons]
  | HCI_EVENT ev => simp [WaitUiPairingAccept, waitForEvent_cons]

theorem waitUiConfirmYesNo_mismatch (e : PairingEvent) (q : List PairingEvent)
    (c0 : Option PairingConfirmView) (w : List (List PairingEvent))
    (h : ∀ v : Nat, e ≠ PairingEvent.UI UI_ACTION_TYPE.CONFIRM_YESNO v) :
    (WaitUiConfirmYesNo ⟨e :: q, c0⟩ w).1 = none := by
  cases e with
  | UI a v =>
    cases a with
    | CONFIRM_YESNO => exact absurd rfl (h v)
    | PAIRING_ACCEPTED => simp [WaitUiConfirmYesNo, waitForEvent_cons]
    | PASSKEY => simp [WaitUiConfirmYesNo, waitForEvent_cons]
  | EXIT => simp [WaitUiConfirmYesNo, waitForEvent_cons]
  | L2CAP p => simp [WaitUiConfirmYesNo, waitForEvent_cons]
  | HCI_EVENT ev => simp [WaitUiConfirmYesNo, waitForEvent_cons]

theorem waitUiPasskey_mismatch_other (e : PairingEvent) (q : List PairingEvent)
    (c0 : Option PairingConfirmView) (w1 w2 : List (List PairingEvent))
    (h1 : ∀ v : Nat, e ≠ PairingEvent.UI UI_ACTION_TYPE.PASSKEY v)
    (h2 : ∀ p : CommandView, e ≠ PairingEvent.L2CAP p) :
    (WaitUiPasskey ⟨e :: q, c0⟩ w1 w2).1 = none := by
  cases e with
  | L2CAP p => exact absurd rfl (h2 p)
  | UI a v =>
    simp only [WaitUiPasskey, waitForEvent_cons]
    exact passkeyResult_eq_none _ h1
  | EXIT =>
    simp only [WaitUiPasskey, waitForEvent_cons]
    exact passkeyResult_eq_none _ h1
  | HCI_EVENT ev =>
    simp only [WaitUiPasskey, waitForEvent_cons]
    exact passkeyResult_eq_none _ h1

theorem waitUiPasskey_mismatch_l2cap (p : CommandView) (q : List PairingEvent)
    (c0 : Option PairingConfirmView) (w1 w2 : List (List PairingEvent))
    (h : (TypedView.Create Code.PAIRING_CONFIRM p).IsValid = false) :
    (WaitUiPasskey ⟨PairingEvent.L2CAP p :: q, c0⟩ w1 w2).1 = none := by
  simp only [WaitUiPasskey, waitForEvent_cons]
  split_ifs <;> rfl

theorem waitEncryptionChanged_mismatch (e : PairingEvent) (q : List PairingEvent)
    (c0 : Option PairingConfirmView) (w : List (List PairingEvent))
    (h : ∀ ev : EventView, e = PairingEvent.HCI_EVENT ev →
      (EncryptionChangeView.Create ev).IsValid = false ∧
        (EncryptionKeyRefreshCompleteView.Create ev).IsValid = false) :
    ∃ f, (WaitEncryptionChanged ⟨e :: q, c0⟩ w).1 = EncChangedResult.failure f := by
  cases e with
  | EXIT =>
    simp only [WaitEncryptionChanged, waitForEvent_cons]
    exact ⟨_, rfl⟩
  | L2CAP p =>
    simp only [WaitEncryptionChanged, waitForEvent_cons]
    exact ⟨_, rfl⟩
  | UI a v =>
    simp only [WaitEncryptionChanged, waitForEvent_cons]
    exact ⟨_, rfl⟩
  | HCI_EVENT ev =>
    obtain ⟨hev1, hev2⟩ := h ev rfl
    simp only [WaitEncryptionChanged, waitForEvent_cons]
    split_ifs <;> exact ⟨_, rfl⟩

theorem waitLeLongTermKeyRequest_mismatch (e : PairingEvent)
    (q : List PairingEvent) (c0 : Option PairingConfirmView)
    (w : List (List PairingEvent))
    (h : ∀ ev : EventView, e = PairingEvent.HCI_EVENT ev →
      (LeLongTermKeyRequestView.Create (LeMetaEventView.Create ev)).IsValid = false) :
    ∃ f, (WaitLeLongTermKeyRequest ⟨e :: q, c0⟩ w).1 = Except.error f := by
  cases e with
  | EXIT =>
    simp only [WaitLeLongTermKeyRequest, waitForEvent_cons]
    exact ⟨_, rfl⟩
  | L2CAP p =>
    simp only [WaitLeLongTermKeyRequest, waitForEvent_cons]
    exact ⟨_, rfl⟩
  | UI a v =>
    simp only [WaitLeLongTermKeyRequest, waitForEvent_cons]
    exact ⟨_, rfl⟩
  | HCI_EVENT ev =>
    have hev := h ev rfl
    simp only [WaitLeLongTermKeyRequest, waitForEvent_cons]
    split_ifs <;> exact ⟨_, rfl⟩

/-- C2: every typed waiter classifies the next event, and any mismatched
classification yields the failure outcome (a PairingFailure for the packet
and HCI waiters, nullopt for the UI waiters), with the sole exception of a
valid PAIRING_CONFIRM arriving during a UI passkey wait, which is cached in
the one-slot cache and the wait reissued. -/
theorem typed_waiters_mismatch_failure :
    (∀ (CODE : Code) (e : PairingEvent) (q : List PairingEvent)
      (c0 : Option PairingConfirmView) (w : List (List PairingEvent)),
      (∀ p : CommandView, e = PairingEvent.L2CAP p →
        (TypedView.Create CODE p).IsValid = false) →
      ∃ f, (WaitPacket CODE ⟨e :: q, c0⟩ w).1 = Except.error f) ∧
    (∀ (e : PairingEvent) (q : List PairingEvent)
      (c0 : Option PairingConfirmView) (w : List (List PairingEvent)),
      (∀ v : Nat, e ≠ PairingEvent.UI UI_ACTION_TYPE.PAIRING_ACCEPTED v) →
      (WaitUiPairingAccept ⟨e :: q, c0⟩ w).1 = none) ∧
    (∀ (e : PairingEvent) (q : List PairingEvent)
      (c0 : Option PairingConfirmView) (w : List (List PairingEvent)),
      (∀ v : Nat, e ≠ PairingEvent.UI UI_ACTION_TYPE.CONFIRM_YESNO v) →
      (WaitUiConfirmYesNo ⟨e :: q, c0⟩ w).1 = none) ∧
    (∀ (e : PairingEvent) (q : List PairingEvent)
      (c0 : Option PairingConfirmView) (w1 w2 : List (List PairingEvent)),
      (∀ v : Nat, e ≠ PairingEvent.UI UI_ACTION_TYPE.PASSKEY v) →
      (∀ p : CommandView, e ≠ PairingEvent.L2CAP p) →
      (WaitUiPasskey ⟨e :: q, c0⟩ w1 w2).1 = none) ∧
    (∀ (p : CommandView) (q : List PairingEvent)
      (c0 : Option PairingConfirmView) (w1 w2 : List (List PairingEvent)),
      (TypedView.Create Code.PAIRING_CONFIRM p).IsValid = false →
      (WaitUiPasskey ⟨PairingEvent.L2CAP p :: q, c0⟩ w1 w2).1 = none) ∧
    (∀ (p : CommandView) (q : List PairingEvent)
      (c0 : Option PairingConfirmView) (w1 w2 : List (List PairingEvent)),
      (TypedView.Create Code.PAIRING_CONFIRM p).IsValid = true →
      WaitUiPasskey ⟨PairingEvent.L2CAP p :: q, c0⟩ w1 w2 =
        (passkeyResult (WaitForEvent q w2).1,
          ⟨(WaitForEvent q w2).2, some (TypedView.Create Code.PAIRING_CONFIRM p)⟩)) ∧
    (∀ (e : PairingEvent) (q : List PairingEvent)
      (c0 : Option PairingConfirmView) (w : List (List PairingEvent)),
      (∀ ev : EventView, e = PairingEvent.HCI_EVENT ev →
        (EncryptionChangeView.Create ev).IsValid = false ∧
          (EncryptionKeyRefreshCompleteView.Create ev).IsValid = false) →
      ∃ f, (WaitEncryptionChanged ⟨e :: q, c0⟩ w).1 = EncChangedResult.failure f) ∧
    (∀ (e : PairingEvent) (q : List PairingEvent)
      (c0 : Option PairingConfirmView) (w : List (List PairingEvent)),
      (∀ ev : EventView, e = PairingEvent.HCI_EVENT ev →
        (LeLongTermKeyRequestView.Create (LeMetaEventView.Create ev)).IsValid = false) →
      ∃ f, (WaitLeLongTermKeyRequest ⟨e :: q, c0⟩ w).1 = Except.error f) :=
  ⟨waitPacket_mismatch, waitUiPairingAccept_mismatch, waitUiConfirmYesNo_mismatch,
    waitUiPasskey_mismatch_other, waitUiPasskey_mismatch_l2cap,
    fun p q c0 w1 w2 h => waitUiPasskey_cachePath p q c0 w1 w2 h,
    waitEncryptionChanged_mismatch, waitLeLongTermKeyRequest_mismatch⟩

theorem typed_waiters_mismatch_failure_witness :
    ∃ f, (WaitPacket Code.PAIRING_REQUEST ⟨[PairingEvent.EXIT], none⟩ []).1 =
      Except.error f :=
  typed_waiters_mismatch_failure.1 Code.PAIRING_REQUEST PairingEvent.EXIT [] none []
    (by intro p hp; simp at hp)

theorem createValid_fields (C : Code) (p : CommandView)
    (h : (TypedView.Create C p).IsValid = true) :
    p.valid = true ∧ p.code = C := by
  simp only [TypedView.IsValid, TypedView.Create, Bool.and_eq_true, decide_eq_true_eq] at h
  exact ⟨h.1.1, h.1.2⟩

/-- C3: for every awaited opcode other than PAIRING_FAILED, when the next
event is a well-formed L2CAP PAIRING_FAILED PDU, the returned
PairingFailure carries exactly the SMP reason code contained in that PDU
(the single body byte), unmodified. -/
theorem pairing_failed_reason_surfaced (CODE : Code) (p : CommandView)
    (q : List PairingEvent) (c0 : Option PairingConfirmView)
    (w : List (List PairingEvent))
    (hCode : CODE ≠ Code.PAIRING_FAILED)
    (h : (TypedView.Create Code.PAIRING_FAILED p).IsValid = true) :
    (WaitPacket CODE ⟨PairingEvent.L2CAP p :: q, c0⟩ w).1 =
      Except.error ⟨"Was expecting " ++ CodeText CODE ++
          ", but received PAIRING_FAILED instead",
        FailReason.smpReason
          (TypedView.GetReason (TypedView.Create Code.PAIRING_FAILED p))⟩ := by
  obtain ⟨hv, hc⟩ := createValid_fields Code.PAIRING_FAILED p h
  have hne : ¬(Code.PAIRING_FAILED = CODE) := fun hh => hCode hh.symm
  simp [WaitPacket, waitForEvent_cons, CommandView.IsValid, CommandView.GetCode, hv, hc, hne, h]

theorem pairing_failed_reason_surfaced_witness :
    (WaitPacket Code.PAIRING_RANDOM ⟨[PairingEvent.L2CAP sampleFailedPacket], none⟩ []).1 =
      Except.error ⟨"Was expecting " ++ CodeText Code.PAIRING_RANDOM ++
          ", but received PAIRING_FAILED instead",
        FailReason.smpReason
          (TypedView.GetReason (TypedView.Create Code.PAIRING_FAILED sampleFailedPacket))⟩ :=
  pairing_failed_reason_surfaced Code.PAIRING_RANDOM sampleFailedPacket [] none []
    (by decide) (by decide)

/-- C7: WaitEncryptionChanged returns an EncryptionChangeView or an
EncryptionKeyRefreshCompleteView if and only if the next event is a valid
HCI event whose event code is ENCRYPTION_CHANGE or
ENCRYPTION_KEY_REFRESH_COMPLETE respectively and whose packet parses as
that view; for every other next event (non-HCI, invalid, other event code,
or unparsable packet) it returns a PairingFailure. -/
theorem wait_encryption_changed_classification (e : PairingEvent)
    (q : List PairingEvent) (c0 : Option PairingConfirmView)
    (w : List (List PairingEvent)) :
    ((∃ v, (WaitEncryptionChanged ⟨e :: q, c0⟩ w).1 = EncChangedResult.encryptionChange v) ↔
      (∃ ev, e = PairingEvent.HCI_EVENT ev ∧ (EncryptionChangeView.Create ev).IsValid = true)) ∧
    ((∃ v, (WaitEncryptionChanged ⟨e :: q, c0⟩ w).1 = EncChangedResult.keyRefresh v) ↔
      (∃ ev, e = PairingEvent.HCI_EVENT ev ∧
        (EncryptionKeyRefreshCompleteView.Create ev).IsValid = true)) ∧
    ((∃ f, (WaitEncryptionChanged ⟨e :: q, c0⟩ w).1 = EncChangedResult.failure f) ↔
      ¬ ∃ ev, e = PairingEvent.HCI_EVENT ev ∧
        ((EncryptionChangeView.Create ev).IsValid = true ∨
          (EncryptionKeyRefreshCompleteView.Create ev).IsValid = true)) := by
  cases e with
  | EXIT =>
    simp only [WaitEncryptionChanged, waitForEvent_cons]
    refine ⟨?_, ?_, ?_⟩ <;> simp
  | L2CAP p =>
    simp only [WaitEncryptionChanged, waitForEvent_cons]
    refine ⟨?_, ?_, ?_⟩ <;> simp
  | UI a v =>
    simp only [WaitEncryptionChanged, waitForEvent_cons]
    refine ⟨?_, ?_, ?_⟩ <;> simp
  | HCI_EVENT ev =>
    simp only [WaitEncryptionChanged, waitForEvent_cons]
    split_ifs with h1 h2 h3 h4 h5
    · have hv : ev.valid = false := h1
      refine ⟨?_, ?_, ?_⟩ <;>
        simp [EncryptionChangeView.Create, EncryptionChangeView.IsValid,
          EncryptionKeyRefreshCompleteView.Create, EncryptionKeyRefreshCompleteView.IsValid, hv]
    · have hv : ev.valid = true := by simpa [EventView.IsValid] using h1
      have hcode : ev.event_code = EventCode.ENCRYPTION_CHANGE := h2
      have hch : (EncryptionChangeView.Create ev).IsValid = false := h3
      have hrf : (EncryptionKeyRefreshCompleteView.Create ev).IsValid = false := by
        simp [EncryptionKeyRefreshCompleteView.Create, EncryptionKeyRefreshCompleteView.IsValid,
          hcode]
      refine ⟨?_, ?_, ?_⟩ <;> simp [hch, hrf]
    · have hch : (EncryptionChangeView.Create ev).IsValid = true := by
        simpa using h3
      have hcode : ev.event_code = EventCode.ENCRYPTION_CHANGE := h2
      have hrf : (EncryptionKeyRefreshCompleteView.Create ev).IsValid = false := by
        simp [EncryptionKeyRefreshCompleteView.Create, EncryptionKeyRefreshCompleteView.IsValid,
          hcode]
      refine ⟨?_, ?_, ?_⟩ <;> simp [hch, hrf]
    · have hcode : ev.event_code = EventCode.ENCRYPTION_KEY_REFRESH_COMPLETE := h4
      have hch : (EncryptionChangeView.Create ev).IsValid = false := by
        simp [EncryptionChangeView.Create, EncryptionChangeView.IsValid, hcode]
      have hrf : (EncryptionKeyRefreshCompleteView.Create ev).IsValid = false := h5
      refine ⟨?_, ?_, ?_⟩ <;> simp [hch, hrf]
    · have hcode : ev.event_code = EventCode.ENCRYPTION_KEY_REFRESH_COMPLETE := h4
      have hch : (EncryptionChangeView.Create ev).IsValid = false := by
        simp [EncryptionChangeView.Create, EncryptionChangeView.IsValid, hcode]
      have hrf : (EncryptionKeyRefreshCompleteView.Create ev).IsValid = true := by
        simpa using h5
      refine ⟨?_, ?_, ?_⟩ <;> simp [hch, hrf]
    · have hch : (EncryptionChangeView.Create ev).IsValid = false := by
        simp [EncryptionChangeView.Create, EncryptionChangeView.IsValid, EventView.GetEventCode] at h2 ⊢
        intro hv hcode; exact absurd hcode h2
      have hrf : (EncryptionKeyRefreshCompleteView.Create ev).IsValid = false := by
        simp [EncryptionKeyRefreshCompleteView.Create, EncryptionKeyRefreshCompleteView.IsValid,
          EventView.GetEventCode] at h4 ⊢
        intro hv hcode; exact absurd hcode h4
      refine ⟨?_, ?_, ?_⟩ <;> simp [hch, hrf]
